import Mathlib

/-!
# AnalogHorrorDatabase — merge-and-strip synchronization protocol

Shallow embedding of the core of the repository: the `smartMerge` and
`stripImages` functions of the Vercel API route (`src/unnamed/part_002`,
with the older variants in `src/api/data.js` and the Netlify handler in
`src/unnamed/part_003`), together with the POST write paths that invoke
them, over a JavaScript-value model faithful to the JS semantics the code
relies on (truthiness, `typeof`, property access yielding `undefined`,
object spread, `Array.prototype.map`).
-/

/-- A JavaScript value as produced by `JSON.parse` plus `undefined`
(property access on a missing key, and the explicit `data: undefined`
written by `stripImages`). Objects are insertion-ordered field lists,
matching JS object key order; numbers are modelled as integers (all ids
and counts in the database are integral). -/
inductive JVal where
  | undefined : JVal
  | null : JVal
  | bool : Bool → JVal
  | num : Int → JVal
  | str : String → JVal
  | arr : List JVal → JVal
  | obj : List (String × JVal) → JVal
  deriving Repr

/-- JS truthiness. Arrays and objects are always truthy; `0`, `""`,
`null`, `undefined`, `false` are falsy. -/
def truthy : JVal → Bool
  | .undefined => false
  | .null => false
  | .bool b => b
  | .num n => n != 0
  | .str s => s != ""
  | .arr _ => true
  | .obj _ => true

/-- `typeof v === "object"`: true exactly for objects, arrays and `null`. -/
def typeofObject : JVal → Bool
  | .null => true
  | .arr _ => true
  | .obj _ => true
  | _ => false

/-- `Array.isArray v`. -/
def jIsArr : JVal → Bool
  | .arr _ => true
  | _ => false

/-- `v === null` (strict equality against the `null` literal). -/
def jIsNull : JVal → Bool
  | .null => true
  | _ => false

/-- Property read on a field list: first binding wins, missing keys give
`undefined` (JS objects never carry duplicate keys, so first = only). -/
def objGet : List (String × JVal) → String → JVal
  | [], _ => .undefined
  | (k, v) :: rest, key => if k = key then v else objGet rest key

/-- Property write on a field list: `o[key] = v` updates the existing
binding in place (JS keeps the original insertion position) or appends a
new binding at the end. -/
def objSet : List (String × JVal) → String → JVal → List (String × JVal)
  | [], key, v => [(key, v)]
  | (k, w) :: rest, key, v =>
      if k = key then (key, v) :: rest else (k, w) :: objSet rest key v

/-- JS string coercion of a value used as a property key
(`curById[item.id]` stringifies the id): numbers print as decimal,
arrays join their elements with `","` (with `null`/`undefined` elements
printing as `""`), plain objects print as `"[object Object]"`. -/
def keyStr : JVal → String
  | .undefined => "undefined"
  | .null => "null"
  | .bool b => if b then "true" else "false"
  | .num n => toString n
  | .str s => s
  | .arr xs => String.intercalate ","
      (xs.map fun x =>
        match x with
        | .undefined => ""
        | .null => ""
        | .bool b => if b then "true" else "false"
        | .num n => toString n
        | .str s => s
        | .arr _ => ""
        | .obj _ => "[object Object]")
  | .obj _ => "[object Object]"

/-- Decimal array-index key: a non-empty all-digit string parses to the
index (the canonical index keys `Object.keys` enumerates); anything with
a non-digit character is not an index. -/
def keyToNat? (s : String) : Option Nat :=
  if s.data ≠ [] ∧ s.data.all Char.isDigit then
    some (s.data.foldl (fun n c => n * 10 + (c.toNat - '0'.toNat)) 0)
  else none

/-- Property access `v[key]`: objects look the key up, arrays and strings
answer decimal index keys (as enumerated by `Object.keys`), everything
else yields `undefined`. -/
def JVal.getF : JVal → String → JVal
  | .obj fs, key => objGet fs key
  | .arr xs, key =>
      match keyToNat? key with
      | some i => xs.getD i .undefined
      | none => .undefined
  | .str s, key =>
      match keyToNat? key with
      | some i =>
          match s.data.get? i with
          | some c => .str (String.mk [c])
          | none => .undefined
      | none => .undefined
  | _, _ => .undefined

/-- `Object.keys v`: field names of an object, index strings of an array
or string, `[]` for other primitives. (`Object.keys` throws on
`null`/`undefined` in JS; the handlers only reach it after the payload
check or with JSON-parsed bodies, and no theorem below evaluates it
there.) -/
def jKeys : JVal → List String
  | .obj fs => fs.map Prod.fst
  | .arr xs => (List.range xs.length).map (fun i => Nat.repr i)
  | .str s => (List.range s.length).map (fun i => Nat.repr i)
  | _ => []

/-- Object spread `{...v}`: an object contributes its fields, an array or
string its index-keyed elements, any other primitive nothing. -/
def spreadFields : JVal → List (String × JVal)
  | .obj fs => fs
  | .arr xs => xs.enum.map (fun p => (Nat.repr p.1, p.2))
  | .str s => s.data.enum.map (fun p => (Nat.repr p.1, JVal.str (String.mk [p.2])))
  | _ => []

/-- `v.length === 0` (only arrays and strings have a numeric `length`;
on anything else `undefined === 0` is false). -/
def jLenZero : JVal → Bool
  | .arr xs => xs.isEmpty
  | .str s => s.length == 0
  | _ => false

/-- `v.length > 0` (`undefined > 0` is false for non-array/non-string). -/
def jLenPos : JVal → Bool
  | .arr xs => !xs.isEmpty
  | .str s => s.length > 0
  | _ => false

/-! ## Smart Merger (`smartMerge`, src/unnamed/part_002 lines 123–166;
identical logic in src/api/data.js lines 211–237) -/

/-- `isIdArray` of `smartMerge`: both values are arrays, the incoming one
is non-empty, and its first element is truthy, of object type, with a
truthy `id`. -/
def isIdArray (inVal curVal : JVal) : Bool :=
  match inVal, curVal with
  | .arr (x :: _), .arr _ => truthy x && typeofObject x && truthy (x.getF "id")
  | _, _ => false

/-- `curById`: index the current collection by stringified id; a later
item with the same id key overwrites an earlier one. -/
def buildById (items : List JVal) : List (String × JVal) :=
  items.foldl (fun m item => objSet m (keyStr (item.getF "id")) item) []

/-- The body of `inVal.map(inItem => ...)` in `smartMerge`: look the
incoming item's id up in `curById`; on a miss (or a falsy stored item,
`if (!curItem) return inItem`) pass the incoming item through; otherwise
restore `images` when the incoming `images` is falsy or has length 0 and
the current `images` is truthy with positive length, restore `image` when
the incoming `image` is strictly `null` and the current `image` is
truthy, and rebuild the item as `{ ...inItem, images: ..., image: ... }`. -/
def restoreEntity (byId : List (String × JVal)) (inItem : JVal) : JVal :=
  let curItem := objGet byId (keyStr (inItem.getF "id"))
  if truthy curItem then
    let inImgs := inItem.getF "images"
    let curImgs := curItem.getF "images"
    let restoredImages :=
      if (!truthy inImgs || jLenZero inImgs) && truthy curImgs && jLenPos curImgs
      then curImgs else inImgs
    let inImg := inItem.getF "image"
    let restoredImage :=
      if jIsNull inImg && truthy (curItem.getF "image")
      then curItem.getF "image" else inImg
    JVal.obj (objSet (objSet (spreadFields inItem) "images" restoredImages)
      "image" restoredImage)
  else inItem

/-- Per-key merge result: the id-aware branch maps `restoreEntity` over
the incoming array; every other shape overwrites with the incoming value
verbatim. -/
def mergeValue (curVal inVal : JVal) : JVal :=
  if isIdArray inVal curVal then
    match inVal, curVal with
    | .arr inItems, .arr cs =>
        JVal.arr (inItems.map (restoreEntity (buildById cs)))
    | _, _ => inVal
  else inVal

/-- `smartMerge(current, incoming)`: start from `{ ...current }` and, for
each key of `incoming`, assign the per-key merge result. -/
def smartMerge (current incoming : JVal) : JVal :=
  JVal.obj ((jKeys incoming).foldl
    (fun merged key =>
      objSet merged key (mergeValue (current.getF key) (incoming.getF key)))
    (spreadFields current))

/-! ## Image Stripper (`stripImages`, src/unnamed/part_002 lines 174–204;
same shape in src/api/data.js lines 239–255) -/

/-- `{ ...img, data: img.iscover ? img.data : undefined }`: keep `data`
only on the cover record, every other field untouched. -/
def stripRecord (img : JVal) : JVal :=
  JVal.obj (objSet (spreadFields img) "data"
    (if truthy (img.getF "iscover") then img.getF "data" else JVal.undefined))

/-- A series entity: `{ ...s, images: (s.images || []).map(stripRecord) }`.
`none` models the `TypeError` JS raises when a truthy non-array `images`
is `.map`ped. -/
def stripSeriesEntity (s : JVal) : Option JVal :=
  let imgsVal := if truthy (s.getF "images") then s.getF "images" else JVal.arr []
  match imgsVal with
  | .arr xs => some (JVal.obj (objSet (spreadFields s) "images"
      (JVal.arr (xs.map stripRecord))))
  | _ => none

/-- A character entity: `{ ...c, image: null, images: [] }`. -/
def stripCharEntity (c : JVal) : JVal :=
  JVal.obj (objSet (objSet (spreadFields c) "image" JVal.null)
    "images" (JVal.arr []))

/-- An episode entity: `{ ...e, images: [] }`. -/
def stripEpEntity (e : JVal) : JVal :=
  JVal.obj (objSet (spreadFields e) "images" (JVal.arr []))

/-- `xs.map f` for a callback that can throw: `none` when any element
throws. -/
def mapOpt (f : JVal → Option JVal) : List JVal → Option (List JVal)
  | [] => some []
  | x :: xs =>
      match f x, mapOpt f xs with
      | some y, some ys => some (y :: ys)
      | _, _ => none

/-- One `if (out.key) out.key = out.key.map(f)` step of `stripImages`:
skip when the value is falsy, map over it when it is an array, throw
(`none`) when it is truthy but not an array. -/
def stripStep (key : String) (f : JVal → Option JVal)
    (out : List (String × JVal)) : Option (List (String × JVal)) :=
  let v := objGet out key
  if truthy v then
    match v with
    | .arr xs => (mapOpt f xs).map (fun ys => objSet out key (JVal.arr ys))
    | _ => none
  else some out

/-- `stripImages(data)`: `if (!data) return data`, then `{ ...data }` and
the three per-collection rewrites — series records keep only cover
`data`, characters lose `image` and `images` entirely, episodes lose
`images`. -/
def stripImages (data : JVal) : Option JVal :=
  if truthy data then
    (stripStep "ahw_series" stripSeriesEntity (spreadFields data)).bind fun out1 =>
    (stripStep "ahw_chars" (fun c => some (stripCharEntity c)) out1).bind fun out2 =>
    (stripStep "ahw_eps" (fun e => some (stripEpEntity e)) out2).map JVal.obj
  else some data

/-! ## Write handlers -/

/-- Outcome of a POST body once parsed: rejected as a non-object payload
(HTTP 400, "Body must be a JSON object"), or accepted with the document
that gets persisted. -/
inductive WriteResult where
  | invalidPayload : WriteResult
  | success : JVal → WriteResult
  deriving Repr

/-- The POST path of the dynamic-keys handler (src/unnamed/part_002
lines 239–262): reject when
`!incoming || typeof incoming !== "object" || Array.isArray(incoming)`,
otherwise persist `smartMerge(current, incoming)`. -/
def dataPost (incoming current : JVal) : WriteResult :=
  if !truthy incoming || !typeofObject incoming || jIsArr incoming then
    .invalidPayload
  else
    .success (smartMerge current incoming)

/-- The POST path of the earlier Supabase handler (src/api/data.js
lines 283–299): no payload-shape validation at all; whatever parsed is
merged and persisted. -/
def dataPostLegacy (incoming current : JVal) : WriteResult :=
  .success (smartMerge current incoming)

/-! ## Version-token store (Netlify/GitHub file adapter,
src/unnamed/part_003 lines 37–59 and src/api/data.js lines 41–57) -/

/-- Store-level failures named by the spec's error taxonomy. -/
inductive StoreError where
  | storeWriteConflict : StoreError
  | storeUnavailable : StoreError
  deriving Repr, DecidableEq

/-- The backing file store: its current content, a version token (the
content sha), and whether the file exists yet. -/
structure Store where
  content : JVal
  token : Nat
  present : Bool
  deriving Repr

/-- Modelled from the spec: the version-token–enforcing backing store (the
GitHub contents API behind `writeFile`, which is not part of src/). A PUT
carrying a token different from the stored one — or omitting the token
when the file exists, or carrying one when it does not — is rejected with
`StoreWriteConflict`; an accepted PUT installs the new content under a
fresh token. -/
def ghPut (st : Store) (newContent : JVal) (sha : Option Nat) :
    Except StoreError Store :=
  if st.present then
    match sha with
    | some t =>
        if t = st.token then .ok ⟨newContent, st.token + 1, true⟩
        else .error .storeWriteConflict
    | none => .error .storeWriteConflict
  else
    match sha with
    | some _ => .error .storeWriteConflict
    | none => .ok ⟨newContent, st.token + 1, true⟩

/-- `writeFile(newData, sha)` of the file-commit adapter: PUT the new
content with the sha included when present (`...(sha ? { sha } : {})`),
answer `res.ok` and leave the remote state as the PUT left it (unchanged
on failure — the adapter never retries without the sha). -/
def writeFile (st : Store) (newData : JVal) (sha : Option Nat) :
    Bool × Store :=
  match ghPut st newData sha with
  | .ok st' => (true, st')
  | .error _ => (false, st)

/-! ## Field-list lemmas -/

theorem objGet_objSet_self (fs : List (String × JVal)) (k : String) (v : JVal) :
    objGet (objSet fs k v) k = v := by
  induction fs with
  | nil => simp [objGet, objSet]
  | cons p rest ih =>
      obtain ⟨k₀, v₀⟩ := p
      by_cases h : k₀ = k
      · simp [objSet, objGet, h]
      · simp [objSet, objGet, h, ih]

theorem objGet_objSet_ne (fs : List (String × JVal)) (k k' : String) (v : JVal)
    (h : k' ≠ k) : objGet (objSet fs k v) k' = objGet fs k' := by
  induction fs with
  | nil =>
      simp only [objSet, objGet]
      rw [if_neg (fun hh => h hh.symm)]
  | cons p rest ih =>
      obtain ⟨k₀, v₀⟩ := p
      by_cases hp : k₀ = k
      · subst hp
        simp only [objSet, if_pos rfl, objGet]
        rw [if_neg (fun hh => h hh.symm), if_neg (fun hh => h hh.symm)]
      · simp only [objSet, if_neg hp, objGet]
        by_cases hp' : k₀ = k'
        · rw [if_pos hp', if_pos hp']
        · rw [if_neg hp', if_neg hp', ih]

theorem objSet_objSet_self (fs : List (String × JVal)) (k : String) (v w : JVal) :
    objSet (objSet fs k v) k w = objSet fs k w := by
  induction fs with
  | nil => simp [objSet]
  | cons p rest ih =>
      obtain ⟨k₀, v₀⟩ := p
      by_cases h : k₀ = k
      · simp [objSet, h]
      · simp [objSet, h, ih]

theorem objSet_eq_self (fs : List (String × JVal)) (k : String) (v : JVal)
    (hmem : k ∈ fs.map Prod.fst) (hget : objGet fs k = v) : objSet fs k v = fs := by
  induction fs with
  | nil => simp at hmem
  | cons p rest ih =>
      obtain ⟨k₀, v₀⟩ := p
      by_cases h : k₀ = k
      · subst h
        have hget' : v₀ = v := by simpa [objGet] using hget
        subst hget'
        simp [objSet]
      · simp only [objGet, if_neg h] at hget
        simp only [List.map_cons, List.mem_cons] at hmem
        rcases hmem with hmem | hmem
        · exact absurd hmem.symm h
        · simp [objSet, h, ih hmem hget]

theorem objGet_eq_undef_of_not_mem (fs : List (String × JVal)) (k : String)
    (h : k ∉ fs.map Prod.fst) : objGet fs k = .undefined := by
  induction fs with
  | nil => rfl
  | cons p rest ih =>
      obtain ⟨k₀, v₀⟩ := p
      simp only [List.map_cons, List.mem_cons] at h
      push_neg at h
      simp only [objGet]
      rw [if_neg (fun hh => h.1 hh.symm), ih h.2]

theorem mem_of_truthy_objGet (fs : List (String × JVal)) (k : String)
    (h : truthy (objGet fs k) = true) : k ∈ fs.map Prod.fst := by
  by_contra hk
  rw [objGet_eq_undef_of_not_mem fs k hk] at h
  exact Bool.false_ne_true h

theorem mem_map_fst_objSet (fs : List (String × JVal)) (k : String) (v : JVal) :
    k ∈ (objSet fs k v).map Prod.fst := by
  induction fs with
  | nil => simp [objSet]
  | cons p rest ih =>
      obtain ⟨k₀, v₀⟩ := p
      by_cases h : k₀ = k
      · simp [objSet, h]
      · simp only [objSet, if_neg h, List.map_cons, List.mem_cons]
        exact Or.inr ih

theorem mem_map_fst_objSet_of_mem (fs : List (String × JVal)) (k k' : String)
    (v : JVal) (h : k' ∈ fs.map Prod.fst) : k' ∈ (objSet fs k v).map Prod.fst := by
  induction fs with
  | nil => simp at h
  | cons p rest ih =>
      obtain ⟨k₀, v₀⟩ := p
      simp only [List.map_cons, List.mem_cons] at h
      by_cases hp : k₀ = k
      · subst hp
        simp only [objSet, if_pos rfl]
        simpa using h
      · simp only [objSet, if_neg hp, List.map_cons, List.mem_cons]
        rcases h with h | h
        · exact Or.inl h
        · exact Or.inr (ih h)

/-! ## Decimal index keys never collide with named fields -/

theorem digitChar_isDigit (m : Nat) (h : m < 10) :
    (Nat.digitChar m).isDigit = true := by
  interval_cases m <;> decide

theorem toDigitsCore_isDigit (f : Nat) : ∀ (n : Nat) (l : List Char),
    (∀ c ∈ l, c.isDigit = true) →
    ∀ c ∈ Nat.toDigitsCore 10 f n l, c.isDigit = true := by
  induction f with
  | zero =>
      intro n l hl c hc
      simp only [Nat.toDigitsCore] at hc
      exact hl c hc
  | succ f ih =>
      intro n l hl c hc
      have hcons : ∀ c ∈ (Nat.digitChar (n % 10) :: l), c.isDigit = true := by
        intro c hc
        rcases List.mem_cons.mp hc with h | h
        · subst h
          exact digitChar_isDigit _ (Nat.mod_lt n (by norm_num))
        · exact hl c h
      simp only [Nat.toDigitsCore] at hc
      by_cases h0 : n / 10 = 0
      · rw [if_pos h0] at hc
        exact hcons c hc
      · rw [if_neg h0] at hc
        exact ih _ _ hcons c hc

theorem repr_isDigit (n : Nat) : ∀ c ∈ (Nat.repr n).data, c.isDigit = true := by
  intro c hc
  have hd : (Nat.repr n).data = Nat.toDigitsCore 10 (n + 1) n [] := rfl
  rw [hd] at hc
  exact toDigitsCore_isDigit (n + 1) n [] (by intro c hc; simp at hc) c hc

theorem repr_ne_of_nonDigit (n : Nat) (s : String) (c : Char) (hc : c ∈ s.data)
    (hcd : c.isDigit = false) : Nat.repr n ≠ s := by
  intro h
  have hdig := repr_isDigit n c (by rw [h]; exact hc)
  rw [hcd] at hdig
  exact Bool.false_ne_true hdig

theorem keyToNat?_eq_none_of_nonDigit (k : String) (c : Char) (hc : c ∈ k.data)
    (hcd : c.isDigit = false) : keyToNat? k = none := by
  rw [keyToNat?, if_neg]
  rintro ⟨-, hall⟩
  have hdig := List.all_eq_true.mp hall c hc
  rw [hcd] at hdig
  exact Bool.false_ne_true hdig

theorem objGet_spreadFields (x : JVal) (k : String) (c : Char)
    (hc : c ∈ k.data) (hcd : c.isDigit = false) :
    objGet (spreadFields x) k = x.getF k := by
  cases x with
  | obj fs => rfl
  | arr xs =>
      have hmem : k ∉ (spreadFields (JVal.arr xs)).map Prod.fst := by
        simp only [spreadFields, List.map_map, List.mem_map]
        rintro ⟨p, _, hp⟩
        exact repr_ne_of_nonDigit p.1 k c hc hcd hp
      rw [objGet_eq_undef_of_not_mem _ _ hmem]
      show JVal.undefined = JVal.getF (JVal.arr xs) k
      rw [JVal.getF, keyToNat?_eq_none_of_nonDigit k c hc hcd]
  | str s =>
      have hmem : k ∉ (spreadFields (JVal.str s)).map Prod.fst := by
        simp only [spreadFields, List.map_map, List.mem_map]
        rintro ⟨p, _, hp⟩
        exact repr_ne_of_nonDigit p.1 k c hc hcd hp
      rw [objGet_eq_undef_of_not_mem _ _ hmem]
      show JVal.undefined = JVal.getF (JVal.str s) k
      rw [JVal.getF, keyToNat?_eq_none_of_nonDigit k c hc hcd]
  | undefined => rfl
  | null => rfl
  | bool b => rfl
  | num n => rfl

/-! ## Folding key assignments -/

theorem objGet_foldl_objSet_of_not_mem (keys : List String) (g : String → JVal)
    (init : List (String × JVal)) (key : String) (hk : key ∉ keys) :
    objGet (keys.foldl (fun m k => objSet m k (g k)) init) key = objGet init key := by
  induction keys generalizing init with
  | nil => rfl
  | cons k ks ih =>
      simp only [List.mem_cons] at hk
      push_neg at hk
      rw [List.foldl_cons, ih _ hk.2, objGet_objSet_ne _ _ _ _ hk.1]

theorem objGet_foldl_objSet_of_mem (keys : List String) (g : String → JVal)
    (init : List (String × JVal)) (key : String) (hnd : keys.Nodup)
    (hk : key ∈ keys) :
    objGet (keys.foldl (fun m k => objSet m k (g k)) init) key = g key := by
  induction keys generalizing init with
  | nil => simp at hk
  | cons k ks ih =>
      rw [List.foldl_cons]
      rcases List.mem_cons.mp hk with h | h
      · subst h
        have hnot : key ∉ ks := (List.nodup_cons.mp hnd).1
        rw [objGet_foldl_objSet_of_not_mem _ _ _ _ hnot, objGet_objSet_self]
      · exact ih _ (List.nodup_cons.mp hnd).2 h

theorem smartMerge_getF (curFs incFs : List (String × JVal)) (key : String)
    (hnd : (incFs.map Prod.fst).Nodup) (hk : key ∈ incFs.map Prod.fst) :
    (smartMerge (JVal.obj curFs) (JVal.obj incFs)).getF key =
      mergeValue (objGet curFs key) (objGet incFs key) := by
  show objGet _ key = _
  exact objGet_foldl_objSet_of_mem (incFs.map Prod.fst) _ curFs key hnd hk

/-! ## restoreEntity projections -/

theorem getF_restoreEntity_id (byId : List (String × JVal)) (x : JVal) :
    (restoreEntity byId x).getF "id" = x.getF "id" := by
  rw [restoreEntity]
  by_cases h : truthy (objGet byId (keyStr (x.getF "id"))) = true
  · rw [if_pos h]
    show objGet _ "id" = _
    rw [objGet_objSet_ne _ _ _ _ (by decide), objGet_objSet_ne _ _ _ _ (by decide)]
    exact objGet_spreadFields x "id" 'i' (by decide) (by decide)
  · rw [if_neg h]

theorem getF_restoreEntity_images (byId : List (String × JVal)) (x cit : JVal)
    (hmatch : objGet byId (keyStr (x.getF "id")) = cit)
    (htr : truthy cit = true) :
    (restoreEntity byId x).getF "images" =
      (if (!truthy (x.getF "images") || jLenZero (x.getF "images"))
          && truthy (cit.getF "images") && jLenPos (cit.getF "images")
       then cit.getF "images" else x.getF "images") := by
  rw [restoreEntity, hmatch, if_pos htr]
  show objGet _ "images" = _
  rw [objGet_objSet_ne _ _ _ _ (by decide), objGet_objSet_self]

theorem getF_restoreEntity_image (byId : List (String × JVal)) (x cit : JVal)
    (hmatch : objGet byId (keyStr (x.getF "id")) = cit)
    (htr : truthy cit = true) :
    (restoreEntity byId x).getF "image" =
      (if jIsNull (x.getF "image") && truthy (cit.getF "image")
       then cit.getF "image" else x.getF "image") := by
  rw [restoreEntity, hmatch, if_pos htr]
  show objGet _ "image" = _
  rw [objGet_objSet_self]

/-! ## Idempotence of the stripping primitives -/

theorem stripRecord_idem (img : JVal) :
    stripRecord (stripRecord img) = stripRecord img := by
  have h2 : stripRecord (stripRecord img) =
      JVal.obj (objSet (objSet (spreadFields img) "data"
          (if truthy (img.getF "iscover") then img.getF "data" else JVal.undefined))
        "data"
        (if truthy (objGet (objSet (spreadFields img) "data"
            (if truthy (img.getF "iscover") then img.getF "data" else JVal.undefined))
            "iscover")
         then objGet (objSet (spreadFields img) "data"
            (if truthy (img.getF "iscover") then img.getF "data" else JVal.undefined))
            "data"
         else JVal.undefined)) := rfl
  rw [h2, objSet_objSet_self,
      objGet_objSet_ne _ _ _ _ (by decide : ("iscover" : String) ≠ "data"),
      objGet_objSet_self,
      objGet_spreadFields img "iscover" 'i' (by decide) (by decide)]
  rw [stripRecord]
  by_cases h : truthy (JVal.getF img "iscover") = true
  · simp only [h, if_true]
  · rw [Bool.not_eq_true] at h
    simp only [h, Bool.false_eq_true, if_false]

theorem stripCharEntity_idem (c : JVal) :
    stripCharEntity (stripCharEntity c) = stripCharEntity c := by
  simp only [stripCharEntity, spreadFields]
  rw [objSet_eq_self _ "image" JVal.null
      (mem_map_fst_objSet_of_mem _ _ _ _ (mem_map_fst_objSet _ _ _))
      (by rw [objGet_objSet_ne _ _ _ _ (by decide : ("image" : String) ≠ "images"),
              objGet_objSet_self])]
  rw [objSet_objSet_self]

theorem stripEpEntity_idem (e : JVal) :
    stripEpEntity (stripEpEntity e) = stripEpEntity e := by
  simp only [stripEpEntity, spreadFields]
  rw [objSet_objSet_self]

theorem stripSeriesEntity_idem (s y : JVal) (h : stripSeriesEntity s = some y) :
    stripSeriesEntity y = some y := by
  rw [stripSeriesEntity] at h
  cases hv : (if truthy (s.getF "images") then s.getF "images" else JVal.arr []) with
  | arr xs =>
      rw [hv] at h
      have hy : y = JVal.obj (objSet (spreadFields s) "images"
          (JVal.arr (xs.map stripRecord))) := (Option.some.inj h).symm
      subst hy
      rw [stripSeriesEntity]
      have hget : (JVal.obj (objSet (spreadFields s) "images"
          (JVal.arr (xs.map stripRecord)))).getF "images" =
          JVal.arr (xs.map stripRecord) := by
        show objGet _ "images" = _
        exact objGet_objSet_self _ _ _
      rw [hget]
      simp only [truthy, if_true, spreadFields]
      rw [List.map_map]
      have hmm : xs.map (stripRecord ∘ stripRecord) = xs.map stripRecord :=
        List.map_congr_left (fun x _ => stripRecord_idem x)
      rw [hmm, objSet_objSet_self]
  | undefined => rw [hv] at h; cases h
  | null => rw [hv] at h; cases h
  | bool b => rw [hv] at h; cases h
  | num n => rw [hv] at h; cases h
  | str t => rw [hv] at h; cases h
  | obj fs => rw [hv] at h; cases h

theorem mapOpt_idem (f : JVal → Option JVal)
    (hf : ∀ x y, f x = some y → f y = some y) :
    ∀ xs ys, mapOpt f xs = some ys → mapOpt f ys = some ys := by
  intro xs
  induction xs with
  | nil =>
      intro ys h
      rw [mapOpt] at h
      obtain rfl : ([] : List JVal) = ys := Option.some.inj h
      rfl
  | cons x xs ih =>
      intro ys h
      rw [mapOpt] at h
      cases hfx : f x with
      | none => rw [hfx] at h; cases h
      | some y =>
          cases hrest : mapOpt f xs with
          | none => rw [hfx, hrest] at h; cases h
          | some zs =>
              rw [hfx, hrest] at h
              obtain rfl : y :: zs = ys := Option.some.inj h
              rw [mapOpt, hf x y hfx, ih zs hrest]

theorem stripStep_objGet_ne (key : String) (f : JVal → Option JVal)
    (out out' : List (String × JVal)) (k : String)
    (h : stripStep key f out = some out') (hk : k ≠ key) :
    objGet out' k = objGet out k := by
  rw [stripStep] at h
  by_cases ht : truthy (objGet out key) = true
  · rw [if_pos ht] at h
    cases hv : objGet out key with
    | arr xs =>
        rw [hv] at h
        dsimp only at h
        cases hm : mapOpt f xs with
        | none => rw [hm] at h; cases h
        | some ys =>
            rw [hm] at h
            simp only [Option.map_some'] at h
            obtain rfl : objSet out key (JVal.arr ys) = out' := Option.some.inj h
            exact objGet_objSet_ne _ _ _ _ hk
    | undefined => rw [hv] at h; cases h
    | null => rw [hv] at h; cases h
    | bool b => rw [hv] at h; cases h
    | num n => rw [hv] at h; cases h
    | str t => rw [hv] at h; cases h
    | obj fs => rw [hv] at h; cases h
  · rw [if_neg ht] at h
    obtain rfl : out = out' := Option.some.inj h
    rfl

theorem stripStep_again (key : String) (f : JVal → Option JVal)
    (hf : ∀ x y, f x = some y → f y = some y)
    (out out₁ out₂ : List (String × JVal))
    (h1 : stripStep key f out = some out₁)
    (heq : objGet out₂ key = objGet out₁ key) :
    stripStep key f out₂ = some out₂ := by
  rw [stripStep] at h1
  rw [stripStep]
  by_cases ht : truthy (objGet out key) = true
  · rw [if_pos ht] at h1
    cases hv : objGet out key with
    | arr xs =>
        rw [hv] at h1
        dsimp only at h1
        cases hm : mapOpt f xs with
        | none => rw [hm] at h1; cases h1
        | some ys =>
            rw [hm] at h1
            simp only [Option.map_some'] at h1
            obtain rfl : objSet out key (JVal.arr ys) = out₁ := Option.some.inj h1
            have hval₂ : objGet out₂ key = JVal.arr ys :=
              heq.trans (objGet_objSet_self _ _ _)
            rw [hval₂]
            simp only [truthy, if_true]
            rw [mapOpt_idem f hf xs ys hm]
            simp only [Option.map_some']
            rw [objSet_eq_self _ _ _
              (mem_of_truthy_objGet _ _ (by rw [hval₂]; rfl)) hval₂]
    | undefined => rw [hv] at h1; cases h1
    | null => rw [hv] at h1; cases h1
    | bool b => rw [hv] at h1; cases h1
    | num n => rw [hv] at h1; cases h1
    | str t => rw [hv] at h1; cases h1
    | obj fs => rw [hv] at h1; cases h1
  · rw [if_neg ht] at h1
    obtain rfl : out = out₁ := Option.some.inj h1
    rw [heq, if_neg ht]

theorem stripImages_idem_aux (d d' : JVal) (h : stripImages d = some d') :
    stripImages d' = some d' := by
  rw [stripImages] at h
  by_cases htd : truthy d = true
  · rw [if_pos htd] at h
    rw [Option.bind_eq_some] at h
    obtain ⟨out1, h1, h⟩ := h
    rw [Option.bind_eq_some] at h
    obtain ⟨out2, h2, h⟩ := h
    rw [Option.map_eq_some'] at h
    obtain ⟨out3, h3, rfl⟩ := h
    simp only [stripImages, truthy, if_true, spreadFields]
    have hser : objGet out3 "ahw_series" = objGet out1 "ahw_series" := by
      rw [stripStep_objGet_ne _ _ _ _ _ h3 (by decide),
          stripStep_objGet_ne _ _ _ _ _ h2 (by decide)]
    have hch : objGet out3 "ahw_chars" = objGet out2 "ahw_chars" :=
      stripStep_objGet_ne _ _ _ _ _ h3 (by decide)
    have hs' : stripStep "ahw_series" stripSeriesEntity out3 = some out3 :=
      stripStep_again _ _ stripSeriesEntity_idem _ _ _ h1 hser
    have hc' : stripStep "ahw_chars" (fun c => some (stripCharEntity c)) out3
        = some out3 :=
      stripStep_again _ _ (fun x y hxy => by
        obtain rfl : stripCharEntity x = y := Option.some.inj hxy
        rw [stripCharEntity_idem]) _ _ _ h2 hch
    have he' : stripStep "ahw_eps" (fun e => some (stripEpEntity e)) out3
        = some out3 :=
      stripStep_again _ _ (fun x y hxy => by
        obtain rfl : stripEpEntity x = y := Option.some.inj hxy
        rw [stripEpEntity_idem]) _ _ _ h3 rfl
    rw [hs', Option.some_bind, hc', Option.some_bind, he', Option.map_some']
  · rw [if_neg htd] at h
    obtain rfl : d = d' := Option.some.inj h
    rw [stripImages, if_neg htd]

/-! ## Branch analysis of the merger -/

theorem isIdArray_iff (inVal curVal : JVal) :
    isIdArray inVal curVal = true ↔
      ∃ xfs rest cs, inVal = JVal.arr (JVal.obj xfs :: rest) ∧
        curVal = JVal.arr cs ∧ truthy (objGet xfs "id") = true := by
  have hid : keyToNat? "id" = none :=
    keyToNat?_eq_none_of_nonDigit "id" 'i' (by decide) (by decide)
  cases inVal with
  | arr xs =>
      cases curVal with
      | arr cs =>
          cases xs with
          | nil => simp [isIdArray]
          | cons x rest =>
              cases x with
              | obj xfs => simp [isIdArray, truthy, typeofObject, JVal.getF]
              | undefined => simp [isIdArray, truthy]
              | null => simp [isIdArray, truthy, typeofObject]
              | bool b => simp [isIdArray, typeofObject]
              | num n => simp [isIdArray, typeofObject]
              | str t => simp [isIdArray, typeofObject]
              | arr ys => simp [isIdArray, truthy, typeofObject, JVal.getF, hid]
      | undefined => simp [isIdArray]
      | null => simp [isIdArray]
      | bool b => simp [isIdArray]
      | num n => simp [isIdArray]
      | str t => simp [isIdArray]
      | obj fs => simp [isIdArray]
  | undefined => simp [isIdArray]
  | null => simp [isIdArray]
  | bool b => simp [isIdArray]
  | num n => simp [isIdArray]
  | str t => simp [isIdArray]
  | obj fs => simp [isIdArray]

theorem mergeValue_of_isIdArray (inItems cs : List JVal)
    (h : isIdArray (JVal.arr inItems) (JVal.arr cs) = true) :
    mergeValue (JVal.arr cs) (JVal.arr inItems) =
      JVal.arr (inItems.map (restoreEntity (buildById cs))) := by
  rw [mergeValue, if_pos h]

theorem mergeValue_of_not_isIdArray (curVal inVal : JVal)
    (h : isIdArray inVal curVal = false) :
    mergeValue curVal inVal = inVal := by
  rw [mergeValue.eq_def, h]
  rw [if_neg Bool.false_ne_true]

theorem mem_map_fst_of_objGet_arr (fs : List (String × JVal)) (k : String)
    (xs : List JVal) (h : objGet fs k = JVal.arr xs) : k ∈ fs.map Prod.fst := by
  by_contra hk
  rw [objGet_eq_undef_of_not_mem fs k hk] at h
  cases h

theorem getD_map_restore_id (byId : List (String × JVal))
    (inItems : List JVal) (i : Nat) :
    ((inItems.map (restoreEntity byId)).getD i JVal.undefined).getF "id" =
      (inItems.getD i JVal.undefined).getF "id" := by
  induction inItems generalizing i with
  | nil => rfl
  | cons x xs ih =>
      cases i with
      | zero =>
          simp only [List.map_cons, List.getD_cons_zero]
          exact getF_restoreEntity_id byId x
      | succ n =>
          simp only [List.map_cons, List.getD_cons_succ]
          exact ih n

theorem getD_map_lt (f : JVal → JVal) (l : List JVal) (i : Nat) (d d' : JVal)
    (h : i < l.length) : (l.map f).getD i d = f (l.getD i d') := by
  induction l generalizing i with
  | nil => simp at h
  | cons x xs ih =>
      cases i with
      | zero => simp
      | succ n =>
          simp only [List.map_cons, List.getD_cons_succ]
          exact ih n (by simpa using h)

/-! ## Extracting the shape of a successful strip -/

theorem mapOpt_total (g : JVal → JVal) (xs : List JVal) :
    mapOpt (fun x => some (g x)) xs = some (xs.map g) := by
  induction xs with
  | nil => rfl
  | cons x xs ih =>
      rw [mapOpt, ih]
      rfl

theorem stripStep_arr (key : String) (f : JVal → Option JVal)
    (out out' : List (String × JVal)) (xs : List JVal)
    (h : stripStep key f out = some out')
    (hv : objGet out key = JVal.arr xs) :
    ∃ ys, mapOpt f xs = some ys ∧ out' = objSet out key (JVal.arr ys) := by
  rw [stripStep, hv] at h
  simp only [truthy, if_true] at h
  cases hm : mapOpt f xs with
  | none => rw [hm] at h; cases h
  | some ys =>
      rw [hm] at h
      simp only [Option.map_some'] at h
      exact ⟨ys, rfl, (Option.some.inj h).symm⟩

theorem stripImages_obj_parts (fs : List (String × JVal)) (out : JVal)
    (h : stripImages (JVal.obj fs) = some out) :
    ∃ out1 out2 out3,
      stripStep "ahw_series" stripSeriesEntity fs = some out1 ∧
      stripStep "ahw_chars" (fun c => some (stripCharEntity c)) out1 = some out2 ∧
      stripStep "ahw_eps" (fun e => some (stripEpEntity e)) out2 = some out3 ∧
      out = JVal.obj out3 := by
  rw [stripImages] at h
  simp only [truthy, if_true, spreadFields] at h
  rw [Option.bind_eq_some] at h
  obtain ⟨out1, h1, h⟩ := h
  rw [Option.bind_eq_some] at h
  obtain ⟨out2, h2, h⟩ := h
  rw [Option.map_eq_some'] at h
  obtain ⟨out3, h3, rfl⟩ := h
  exact ⟨out1, out2, out3, h1, h2, h3, rfl⟩

/-! # Claims -/

/-- C5: the Image Stripper is idempotent — stripping an already-stripped
document changes nothing (and a document on which stripping throws keeps
throwing), so `strip(strip(d)) == strip(d)` for every document `d`. -/
theorem c5_strip_idempotent (d : JVal) :
    (stripImages d).bind stripImages = stripImages d := by
  cases hd : stripImages d with
  | none => rfl
  | some d' =>
      rw [Option.some_bind]
      exact stripImages_idem_aux d d' hd

/-- C6: merging with an empty incoming document is the identity —
`smartMerge(current, {})` copies `current` and assigns no key. -/
theorem c6_merge_empty_identity (fs : List (String × JVal)) :
    smartMerge (JVal.obj fs) (JVal.obj []) = JVal.obj fs := rfl

/-- C9: against the version-token–enforcing store behind `writeFile`, of
two writes submitted with the same (initially fresh) token, the second
write's PUT is rejected with `StoreWriteConflict` and `writeFile` reports
failure without changing the stored state — no silent overwrite. -/
theorem c9_stale_token_conflict (st : Store) (d1 d2 : JVal) :
    ghPut (writeFile st d1 (some st.token)).2 d2 (some st.token) =
      Except.error StoreError.storeWriteConflict ∧
    writeFile (writeFile st d1 (some st.token)).2 d2 (some st.token) =
      (false, (writeFile st d1 (some st.token)).2) := by
  obtain ⟨c, t, p⟩ := st
  cases p
  · simp [writeFile, ghPut]
  · simp [writeFile, ghPut]

/-- C8 counterexample: the earlier Supabase POST handler that the claim
also cites (src/api/data.js lines 283–299) performs no payload-shape
validation: an array body is not rejected with InvalidPayload — it is
merged (its indices become top-level keys) and persisted as a success. -/
theorem c8_counterexample :
    dataPostLegacy (JVal.arr [JVal.num 1]) (JVal.obj []) =
      WriteResult.success (JVal.obj [("0", JVal.num 1)]) := rfl

/-- C8 (amended): only the dynamic-keys handler (src/unnamed/part_002)
validates the payload: its POST path fails with InvalidPayload, before
any store access, for every incoming value that is not a JSON object
(array, null, scalar, undefined); the earlier Supabase and GitHub-file
handlers perform no such validation. -/
theorem c8_post_validation (v current : JVal) (h : ∀ fs, v ≠ JVal.obj fs) :
    dataPost v current = WriteResult.invalidPayload := by
  cases v with
  | obj fs => exact absurd rfl (h fs)
  | undefined => rfl
  | null => rfl
  | bool b => cases b <;> rfl
  | num n => simp [dataPost, typeofObject]
  | str s => simp [dataPost, typeofObject]
  | arr xs => simp [dataPost, jIsArr]

/-- C8 witness: an empty array is rejected with InvalidPayload by the
validating handler. -/
theorem c8_witness :
    dataPost (JVal.arr []) (JVal.obj []) = WriteResult.invalidPayload :=
  c8_post_validation (JVal.arr []) (JVal.obj [])
    (fun _ h => JVal.noConfusion h)

/-- C10: merge branch selection depends only on the first incoming
element — the id-aware branch is taken iff both values are arrays, the
incoming one is non-empty, and its first element is an object with a
truthy `id`; whenever that fails (empty incoming array, first element
with a falsy or missing id — even if later elements carry ids), the
incoming value overwrites the current one verbatim. -/
theorem c10_branch_selection :
    (∀ inVal curVal, isIdArray inVal curVal = true ↔
        ∃ xfs rest cs, inVal = JVal.arr (JVal.obj xfs :: rest) ∧
          curVal = JVal.arr cs ∧ truthy (objGet xfs "id") = true)
    ∧ (∀ curFs incFs key, (incFs.map Prod.fst).Nodup →
        key ∈ incFs.map Prod.fst →
        isIdArray (objGet incFs key) (objGet curFs key) = false →
        (smartMerge (JVal.obj curFs) (JVal.obj incFs)).getF key =
          objGet incFs key) := by
  refine ⟨isIdArray_iff, fun curFs incFs key hnd hk hfalse => ?_⟩
  rw [smartMerge_getF curFs incFs key hnd hk,
      mergeValue_of_not_isIdArray _ _ hfalse]

/-- C10 witness: an incoming array whose first element has id 0 (falsy),
with a second element carrying a truthy id, fully overwrites the current
collection verbatim — no image restoration happens. -/
theorem c10_witness :
    (smartMerge
        (JVal.obj [("ahw_chars", JVal.arr [JVal.obj [("id", JVal.num 0),
          ("images", JVal.arr [JVal.obj [("data", JVal.str "D")]])]])])
        (JVal.obj [("ahw_chars", JVal.arr [JVal.obj [("id", JVal.num 0)],
          JVal.obj [("id", JVal.num 5)]])])).getF "ahw_chars"
      = JVal.arr [JVal.obj [("id", JVal.num 0)], JVal.obj [("id", JVal.num 5)]] :=
  (c10_branch_selection.2
    [("ahw_chars", JVal.arr [JVal.obj [("id", JVal.num 0),
      ("images", JVal.arr [JVal.obj [("data", JVal.str "D")]])]])]
    [("ahw_chars", JVal.arr [JVal.obj [("id", JVal.num 0)],
      JVal.obj [("id", JVal.num 5)]])]
    "ahw_chars" (by decide) (by decide) rfl).trans rfl

/-- C1 counterexample: the current entity's `images` holds a full record
while the incoming entity's `images` is a non-empty sequence consisting
only of stripped records (no `data` value); the claim says the merged
entity then carries the current images, but `smartMerge` keeps the
incoming images exactly as submitted. -/
theorem c1_counterexample :
    (smartMerge
        (JVal.obj [("ahw_series", JVal.arr [JVal.obj
          [("id", JVal.num 1),
           ("images", JVal.arr [JVal.obj
             [("id", JVal.str "i1"), ("data", JVal.str "PAYLOAD")]])]])])
        (JVal.obj [("ahw_series", JVal.arr [JVal.obj
          [("id", JVal.num 1),
           ("images", JVal.arr [JVal.obj [("id", JVal.str "i1")]])]])])).getF
      "ahw_series"
      = JVal.arr [JVal.obj
          [("id", JVal.num 1),
           ("images", JVal.arr [JVal.obj [("id", JVal.str "i1")]]),
           ("image", JVal.undefined)]]
    ∧ JVal.arr [JVal.obj [("id", JVal.str "i1")]]
      ≠ JVal.arr [JVal.obj [("id", JVal.str "i1"), ("data", JVal.str "PAYLOAD")]] :=
  ⟨rfl, by simp⟩

/-- C1 (amended): for an entity of the id-aware merge branch matched by
id to a (truthy) current entity, the merged entity's `images` is the
current entity's `images` exactly when the incoming `images` is falsy
(absent/null) or has length 0 while the current `images` is truthy with
positive length; otherwise — in particular when the incoming `images` is
a non-empty sequence of stripped records — the incoming `images` is kept
exactly as submitted. -/
theorem c1_images_restoration
    (curFs incFs : List (String × JVal)) (key : String)
    (inItems cs : List JVal) (i : Nat) (cit : JVal)
    (hnd : (incFs.map Prod.fst).Nodup)
    (hin : objGet incFs key = JVal.arr inItems)
    (hcur : objGet curFs key = JVal.arr cs)
    (hid : isIdArray (JVal.arr inItems) (JVal.arr cs) = true)
    (hi : i < inItems.length)
    (hmatch : objGet (buildById cs)
      (keyStr ((inItems.getD i JVal.undefined).getF "id")) = cit)
    (htr : truthy cit = true) :
    ∃ outItems : List JVal,
      (smartMerge (JVal.obj curFs) (JVal.obj incFs)).getF key
        = JVal.arr outItems ∧
      (outItems.getD i JVal.undefined).getF "images" =
        (if (!truthy ((inItems.getD i JVal.undefined).getF "images")
              || jLenZero ((inItems.getD i JVal.undefined).getF "images"))
            && truthy (cit.getF "images") && jLenPos (cit.getF "images")
         then cit.getF "images"
         else (inItems.getD i JVal.undefined).getF "images") := by
  have hkey : key ∈ incFs.map Prod.fst := mem_map_fst_of_objGet_arr _ _ _ hin
  refine ⟨inItems.map (restoreEntity (buildById cs)), ?_, ?_⟩
  · rw [smartMerge_getF curFs incFs key hnd hkey, hin, hcur,
        mergeValue_of_isIdArray _ _ hid]
  · rw [getD_map_lt _ _ _ _ JVal.undefined hi]
    exact getF_restoreEntity_images _ _ _ hmatch htr

/-- C1 witness: an incoming entity with an empty `images` sequence,
matched by id to a current entity holding a full record, gets the current
`images` restored in the merged document. -/
theorem c1_witness :
    ∃ outItems : List JVal,
      (smartMerge
        (JVal.obj [("ahw_series", JVal.arr [JVal.obj
          [("id", JVal.num 1),
           ("images", JVal.arr [JVal.obj
             [("id", JVal.str "i1"), ("data", JVal.str "D")]])]])])
        (JVal.obj [("ahw_series", JVal.arr [JVal.obj
          [("id", JVal.num 1), ("images", JVal.arr [])]])])).getF "ahw_series"
        = JVal.arr outItems ∧
      (outItems.getD 0 JVal.undefined).getF "images"
        = JVal.arr [JVal.obj [("id", JVal.str "i1"), ("data", JVal.str "D")]] := by
  obtain ⟨outItems, h1, h2⟩ := c1_images_restoration
    [("ahw_series", JVal.arr [JVal.obj
      [("id", JVal.num 1),
       ("images", JVal.arr [JVal.obj
         [("id", JVal.str "i1"), ("data", JVal.str "D")]])]])]
    [("ahw_series", JVal.arr [JVal.obj
      [("id", JVal.num 1), ("images", JVal.arr [])]])]
    "ahw_series"
    [JVal.obj [("id", JVal.num 1), ("images", JVal.arr [])]]
    [JVal.obj [("id", JVal.num 1),
      ("images", JVal.arr [JVal.obj
        [("id", JVal.str "i1"), ("data", JVal.str "D")]])]]
    0
    (JVal.obj [("id", JVal.num 1),
      ("images", JVal.arr [JVal.obj
        [("id", JVal.str "i1"), ("data", JVal.str "D")]])])
    (by decide) rfl rfl rfl (by decide) rfl rfl
  exact ⟨outItems, h1, h2.trans rfl⟩

/-- C4 counterexample: the incoming entity's `image` field is absent (not
null) and the current entity has a non-null `image`; the claim says the
merged entity then carries the current image, but `smartMerge` restores
only on a strict `image === null` and keeps the absent value. -/
theorem c4_counterexample :
    (smartMerge
        (JVal.obj [("ahw_chars", JVal.arr [JVal.obj
          [("id", JVal.num 1), ("name", JVal.str "A"),
           ("image", JVal.str "http://x/a.png")]])])
        (JVal.obj [("ahw_chars", JVal.arr [JVal.obj
          [("id", JVal.num 1), ("name", JVal.str "A")]])])).getF "ahw_chars"
      = JVal.arr [JVal.obj
          [("id", JVal.num 1), ("name", JVal.str "A"),
           ("images", JVal.undefined), ("image", JVal.undefined)]]
    ∧ JVal.undefined ≠ JVal.str "http://x/a.png" :=
  ⟨rfl, by simp⟩

/-- C4 (amended): for an entity of the id-aware merge branch matched by
id to a (truthy) current entity, the merged entity's `image` is the
current entity's `image` exactly when the incoming `image` is strictly
`null` and the current `image` is truthy; otherwise (including an absent
incoming `image`, or a falsy current one) the incoming `image` is kept.
In particular Scenario A (incoming `image: null` against a current URL)
restores the URL. -/
theorem c4_image_restoration
    (curFs incFs : List (String × JVal)) (key : String)
    (inItems cs : List JVal) (i : Nat) (cit : JVal)
    (hnd : (incFs.map Prod.fst).Nodup)
    (hin : objGet incFs key = JVal.arr inItems)
    (hcur : objGet curFs key = JVal.arr cs)
    (hid : isIdArray (JVal.arr inItems) (JVal.arr cs) = true)
    (hi : i < inItems.length)
    (hmatch : objGet (buildById cs)
      (keyStr ((inItems.getD i JVal.undefined).getF "id")) = cit)
    (htr : truthy cit = true) :
    ∃ outItems : List JVal,
      (smartMerge (JVal.obj curFs) (JVal.obj incFs)).getF key
        = JVal.arr outItems ∧
      (outItems.getD i JVal.undefined).getF "image" =
        (if jIsNull ((inItems.getD i JVal.undefined).getF "image")
            && truthy (cit.getF "image")
         then cit.getF "image"
         else (inItems.getD i JVal.undefined).getF "image") := by
  have hkey : key ∈ incFs.map Prod.fst := mem_map_fst_of_objGet_arr _ _ _ hin
  refine ⟨inItems.map (restoreEntity (buildById cs)), ?_, ?_⟩
  · rw [smartMerge_getF curFs incFs key hnd hkey, hin, hcur,
        mergeValue_of_isIdArray _ _ hid]
  · rw [getD_map_lt _ _ _ _ JVal.undefined hi]
    exact getF_restoreEntity_image _ _ _ hmatch htr

/-- C4 witness (Scenario A): incoming `image: null` against a current
`image: "http://x/a.png"` — the merged entity's image restores to the
URL. -/
theorem c4_witness :
    ∃ outItems : List JVal,
      (smartMerge
        (JVal.obj [("ahw_chars", JVal.arr [JVal.obj
          [("id", JVal.num 1), ("name", JVal.str "A"),
           ("image", JVal.str "http://x/a.png")]])])
        (JVal.obj [("ahw_chars", JVal.arr [JVal.obj
          [("id", JVal.num 1), ("name", JVal.str "A"),
           ("image", JVal.null)]])])).getF "ahw_chars" = JVal.arr outItems ∧
      (outItems.getD 0 JVal.undefined).getF "image"
        = JVal.str "http://x/a.png" := by
  obtain ⟨outItems, h1, h2⟩ := c4_image_restoration
    [("ahw_chars", JVal.arr [JVal.obj
      [("id", JVal.num 1), ("name", JVal.str "A"),
       ("image", JVal.str "http://x/a.png")]])]
    [("ahw_chars", JVal.arr [JVal.obj
      [("id", JVal.num 1), ("name", JVal.str "A"),
       ("image", JVal.null)]])]
    "ahw_chars"
    [JVal.obj [("id", JVal.num 1), ("name", JVal.str "A"),
      ("image", JVal.null)]]
    [JVal.obj [("id", JVal.num 1), ("name", JVal.str "A"),
      ("image", JVal.str "http://x/a.png")]]
    0
    (JVal.obj [("id", JVal.num 1), ("name", JVal.str "A"),
      ("image", JVal.str "http://x/a.png")])
    (by decide) rfl rfl rfl (by decide) rfl rfl
  exact ⟨outItems, h1, h2.trans rfl⟩

/-- C7: the id-aware merge is a full-collection replace — the merged
collection has exactly one output entity per incoming entity, in incoming
order with the same ids, and every id appearing in the output is the id
of some incoming entity, so an id present only in the current collection
does not appear. -/
theorem c7_collection_replace
    (curFs incFs : List (String × JVal)) (key : String) (inItems : List JVal)
    (hnd : (incFs.map Prod.fst).Nodup)
    (hin : objGet incFs key = JVal.arr inItems) :
    ∃ outItems : List JVal,
      (smartMerge (JVal.obj curFs) (JVal.obj incFs)).getF key
        = JVal.arr outItems ∧
      outItems.length = inItems.length ∧
      (∀ i : Nat, (outItems.getD i JVal.undefined).getF "id"
        = (inItems.getD i JVal.undefined).getF "id") ∧
      (∀ v ∈ outItems, ∃ u ∈ inItems, v.getF "id" = u.getF "id") := by
  have hkey : key ∈ incFs.map Prod.fst := mem_map_fst_of_objGet_arr _ _ _ hin
  cases hb : isIdArray (JVal.arr inItems) (objGet curFs key) with
  | false =>
      refine ⟨inItems, ?_, rfl, fun i => rfl, fun v hv => ⟨v, hv, rfl⟩⟩
      rw [smartMerge_getF curFs incFs key hnd hkey, hin,
          mergeValue_of_not_isIdArray _ _ hb]
  | true =>
      obtain ⟨xfs, rest, cs, -, hcur, -⟩ := (isIdArray_iff _ _).mp hb
      rw [hcur] at hb
      refine ⟨inItems.map (restoreEntity (buildById cs)), ?_,
        List.length_map _ _, ?_, ?_⟩
      · rw [smartMerge_getF curFs incFs key hnd hkey, hin, hcur,
            mergeValue_of_isIdArray _ _ hb]
      · exact fun i => getD_map_restore_id _ _ i
      · intro v hv
        obtain ⟨u, hu, rfl⟩ := List.mem_map.mp hv
        exact ⟨u, hu, getF_restoreEntity_id _ u⟩

/-- C7 witness (Scenario C with a current entity to drop): the incoming
collection holding only id 2 replaces the current collection holding only
id 1 — one output entity, same id per position, ids drawn from incoming. -/
theorem c7_witness :
    ∃ outItems : List JVal,
      (smartMerge
        (JVal.obj [("ahw_chars", JVal.arr [JVal.obj
          [("id", JVal.num 1), ("name", JVal.str "OLD")]])])
        (JVal.obj [("ahw_chars", JVal.arr [JVal.obj
          [("id", JVal.num 2), ("name", JVal.str "B")]])])).getF "ahw_chars"
        = JVal.arr outItems ∧
      outItems.length =
        [JVal.obj [("id", JVal.num 2), ("name", JVal.str "B")]].length ∧
      (∀ i : Nat, (outItems.getD i JVal.undefined).getF "id"
        = ([JVal.obj [("id", JVal.num 2), ("name", JVal.str "B")]].getD
            i JVal.undefined).getF "id") ∧
      (∀ v ∈ outItems,
        ∃ u ∈ [JVal.obj [("id", JVal.num 2), ("name", JVal.str "B")]],
          v.getF "id" = u.getF "id") :=
  c7_collection_replace
    [("ahw_chars", JVal.arr [JVal.obj
      [("id", JVal.num 1), ("name", JVal.str "OLD")]])]
    [("ahw_chars", JVal.arr [JVal.obj
      [("id", JVal.num 2), ("name", JVal.str "B")]])]
    "ahw_chars"
    [JVal.obj [("id", JVal.num 2), ("name", JVal.str "B")]]
    (by decide) rfl

/-- C2 counterexample: a character entity carries an `images` sequence
with a cover record (`iscover: true`, full `data`); the claim says strip
keeps the cover record with its data intact, but `stripImages` replaces
the whole character `images` sequence by `[]`, discarding the cover. -/
theorem c2_counterexample :
    stripImages (JVal.obj [("ahw_chars", JVal.arr [JVal.obj
      [("id", JVal.num 1), ("images", JVal.arr [JVal.obj
        [("id", JVal.str "i1"), ("data", JVal.str "D"),
         ("iscover", JVal.bool true)]])]])])
    = some (JVal.obj [("ahw_chars", JVal.arr [JVal.obj
      [("id", JVal.num 1), ("images", JVal.arr []),
       ("image", JVal.null)]])])
    ∧ (JVal.arr [] : JVal) ≠ JVal.arr [JVal.obj
        [("id", JVal.str "i1"), ("data", JVal.str "D"),
         ("iscover", JVal.bool true)]] :=
  ⟨rfl, by simp⟩

/-- C2 (amended): the keep-cover policy applies only to the `ahw_series`
collection: each series record keeps `data` exactly when its `iscover` is
truthy and loses only `data` otherwise (all its other named fields
preserved); the `ahw_chars` and `ahw_eps` collections instead get each
entity's `images` replaced by the empty sequence. -/
theorem c2_strip_series_cover_policy
    (fs : List (String × JVal)) (ss cs es : List JVal) (out : JVal)
    (h : stripImages (JVal.obj fs) = some out)
    (hs : objGet fs "ahw_series" = JVal.arr ss)
    (hc : objGet fs "ahw_chars" = JVal.arr cs)
    (he : objGet fs "ahw_eps" = JVal.arr es) :
    (∃ ss', mapOpt stripSeriesEntity ss = some ss' ∧
        out.getF "ahw_series" = JVal.arr ss') ∧
    out.getF "ahw_chars" = JVal.arr (cs.map stripCharEntity) ∧
    out.getF "ahw_eps" = JVal.arr (es.map stripEpEntity) ∧
    (∀ img, (stripRecord img).getF "data" =
        (if truthy (img.getF "iscover") then img.getF "data" else JVal.undefined)) ∧
    (∀ img k c, c ∈ k.data → c.isDigit = false → k ≠ "data" →
        (stripRecord img).getF k = img.getF k) ∧
    (∀ ch, (stripCharEntity ch).getF "images" = JVal.arr []) ∧
    (∀ e, (stripEpEntity e).getF "images" = JVal.arr []) := by
  obtain ⟨out1, out2, out3, h1, h2, h3, rfl⟩ := stripImages_obj_parts fs out h
  obtain ⟨ss', hss', hout1⟩ := stripStep_arr _ _ _ _ _ h1 hs
  have hc1 : objGet out1 "ahw_chars" = JVal.arr cs := by
    rw [hout1, objGet_objSet_ne _ _ _ _ (by decide), hc]
  obtain ⟨ys, hys, hout2⟩ := stripStep_arr _ _ _ _ _ h2 hc1
  have hys' : ys = cs.map stripCharEntity := by
    rw [mapOpt_total] at hys
    exact (Option.some.inj hys).symm
  have he2 : objGet out2 "ahw_eps" = JVal.arr es := by
    rw [hout2, objGet_objSet_ne _ _ _ _ (by decide),
        hout1, objGet_objSet_ne _ _ _ _ (by decide), he]
  obtain ⟨zs, hzs, hout3⟩ := stripStep_arr _ _ _ _ _ h3 he2
  have hzs' : zs = es.map stripEpEntity := by
    rw [mapOpt_total] at hzs
    exact (Option.some.inj hzs).symm
  refine ⟨⟨ss', hss', ?_⟩, ?_, ?_, ?_, ?_, ?_, ?_⟩
  · show objGet out3 "ahw_series" = JVal.arr ss'
    rw [hout3, objGet_objSet_ne _ _ _ _ (by decide),
        hout2, objGet_objSet_ne _ _ _ _ (by decide),
        hout1, objGet_objSet_self]
  · show objGet out3 "ahw_chars" = JVal.arr (cs.map stripCharEntity)
    rw [hout3, objGet_objSet_ne _ _ _ _ (by decide),
        hout2, objGet_objSet_self, hys']
  · show objGet out3 "ahw_eps" = JVal.arr (es.map stripEpEntity)
    rw [hout3, objGet_objSet_self, hzs']
  · intro img
    rw [stripRecord]
    show objGet _ "data" = _
    exact objGet_objSet_self _ _ _
  · intro img k c hck hcd hkd
    rw [stripRecord]
    show objGet _ k = _
    rw [objGet_objSet_ne _ _ _ _ hkd]
    exact objGet_spreadFields img k c hck hcd
  · intro ch
    rw [stripCharEntity]
    show objGet _ "images" = _
    exact objGet_objSet_self _ _ _
  · intro e
    rw [stripEpEntity]
    show objGet _ "images" = _
    exact objGet_objSet_self _ _ _

/-- C2 witness: a document with all three collections — the series cover
record survives with `data` intact and the non-cover record loses only
`data`, while character and episode images are emptied. -/
theorem c2_witness :
    (∃ ss', mapOpt stripSeriesEntity
        [JVal.obj
          [("id", JVal.str "s1"),
           ("images", JVal.arr
             [JVal.obj [("id", JVal.str "i1"), ("data", JVal.str "P"),
                ("iscover", JVal.bool true)],
              JVal.obj [("id", JVal.str "i2"), ("data", JVal.str "Q")]])]]
        = some ss' ∧
      (JVal.obj
        [("ahw_series", JVal.arr [JVal.obj
           [("id", JVal.str "s1"),
            ("images", JVal.arr
              [JVal.obj [("id", JVal.str "i1"), ("data", JVal.str "P"),
                 ("iscover", JVal.bool true)],
               JVal.obj [("id", JVal.str "i2"), ("data", JVal.undefined)]])]]),
         ("ahw_chars", JVal.arr [JVal.obj
           [("id", JVal.num 1), ("image", JVal.null),
            ("images", JVal.arr [])]]),
         ("ahw_eps", JVal.arr [JVal.obj
           [("id", JVal.num 7), ("images", JVal.arr [])]])]).getF "ahw_series"
        = JVal.arr ss') ∧
    (JVal.obj
      [("ahw_series", JVal.arr [JVal.obj
         [("id", JVal.str "s1"),
          ("images", JVal.arr
            [JVal.obj [("id", JVal.str "i1"), ("data", JVal.str "P"),
               ("iscover", JVal.bool true)],
             JVal.obj [("id", JVal.str "i2"), ("data", JVal.undefined)]])]]),
       ("ahw_chars", JVal.arr [JVal.obj
         [("id", JVal.num 1), ("image", JVal.null),
          ("images", JVal.arr [])]]),
       ("ahw_eps", JVal.arr [JVal.obj
         [("id", JVal.num 7), ("images", JVal.arr [])]])]).getF "ahw_chars"
      = JVal.arr
          ([JVal.obj [("id", JVal.num 1),
             ("image", JVal.str "http://x/a.png")]].map stripCharEntity) ∧
    (JVal.obj
      [("ahw_series", JVal.arr [JVal.obj
         [("id", JVal.str "s1"),
          ("images", JVal.arr
            [JVal.obj [("id", JVal.str "i1"), ("data", JVal.str "P"),
               ("iscover", JVal.bool true)],
             JVal.obj [("id", JVal.str "i2"), ("data", JVal.undefined)]])]]),
       ("ahw_chars", JVal.arr [JVal.obj
         [("id", JVal.num 1), ("image", JVal.null),
          ("images", JVal.arr [])]]),
       ("ahw_eps", JVal.arr [JVal.obj
         [("id", JVal.num 7), ("images", JVal.arr [])]])]).getF "ahw_eps"
      = JVal.arr
          ([JVal.obj [("id", JVal.num 7),
             ("images", JVal.arr [JVal.obj
               [("id", JVal.str "e1"), ("data", JVal.str "R")]])]].map
            stripEpEntity) ∧
    (∀ img, (stripRecord img).getF "data" =
        (if truthy (img.getF "iscover") then img.getF "data" else JVal.undefined)) ∧
    (∀ img k c, c ∈ k.data → c.isDigit = false → k ≠ "data" →
        (stripRecord img).getF k = img.getF k) ∧
    (∀ ch, (stripCharEntity ch).getF "images" = JVal.arr []) ∧
    (∀ e, (stripEpEntity e).getF "images" = JVal.arr []) :=
  c2_strip_series_cover_policy
    [("ahw_series", JVal.arr [JVal.obj
       [("id", JVal.str "s1"),
        ("images", JVal.arr
          [JVal.obj [("id", JVal.str "i1"), ("data", JVal.str "P"),
             ("iscover", JVal.bool true)],
           JVal.obj [("id", JVal.str "i2"), ("data", JVal.str "Q")]])]]),
     ("ahw_chars", JVal.arr [JVal.obj
       [("id", JVal.num 1), ("image", JVal.str "http://x/a.png")]]),
     ("ahw_eps", JVal.arr [JVal.obj
       [("id", JVal.num 7), ("images", JVal.arr [JVal.obj
         [("id", JVal.str "e1"), ("data", JVal.str "R")]])]])]
    [JVal.obj
      [("id", JVal.str "s1"),
       ("images", JVal.arr
         [JVal.obj [("id", JVal.str "i1"), ("data", JVal.str "P"),
            ("iscover", JVal.bool true)],
          JVal.obj [("id", JVal.str "i2"), ("data", JVal.str "Q")]])]]
    [JVal.obj [("id", JVal.num 1), ("image", JVal.str "http://x/a.png")]]
    [JVal.obj [("id", JVal.num 7), ("images", JVal.arr [JVal.obj
      [("id", JVal.str "e1"), ("data", JVal.str "R")]])]]
    (JVal.obj
      [("ahw_series", JVal.arr [JVal.obj
         [("id", JVal.str "s1"),
          ("images", JVal.arr
            [JVal.obj [("id", JVal.str "i1"), ("data", JVal.str "P"),
               ("iscover", JVal.bool true)],
             JVal.obj [("id", JVal.str "i2"), ("data", JVal.undefined)]])]]),
       ("ahw_chars", JVal.arr [JVal.obj
         [("id", JVal.num 1), ("image", JVal.null),
          ("images", JVal.arr [])]]),
       ("ahw_eps", JVal.arr [JVal.obj
         [("id", JVal.num 7), ("images", JVal.arr [])]])])
    rfl rfl rfl rfl

/-- C3 counterexample: a character entity whose single `image` field
holds a remote URL; the claim says strip preserves a URL-valued image,
but `stripImages` sets the character `image` to null unconditionally. -/
theorem c3_counterexample :
    stripImages (JVal.obj [("ahw_chars", JVal.arr [JVal.obj
      [("id", JVal.num 1), ("image", JVal.str "http://x/a.png")]])])
    = some (JVal.obj [("ahw_chars", JVal.arr [JVal.obj
      [("id", JVal.num 1), ("image", JVal.null),
       ("images", JVal.arr [])]])])
    ∧ JVal.null ≠ JVal.str "http://x/a.png" :=
  ⟨rfl, by simp⟩

/-- C3 (amended): for the `ahw_chars` collection (the Entity Collection
carrying a single `image` field), strip sets every entity's `image` to
null unconditionally — no URL-scheme check exists, so remote URLs are
nulled along with inline payloads. -/
theorem c3_strip_char_image_null
    (fs : List (String × JVal)) (cs : List JVal) (out : JVal)
    (h : stripImages (JVal.obj fs) = some out)
    (hc : objGet fs "ahw_chars" = JVal.arr cs) :
    out.getF "ahw_chars" = JVal.arr (cs.map stripCharEntity) ∧
    (∀ ch, (stripCharEntity ch).getF "image" = JVal.null) := by
  obtain ⟨out1, out2, out3, h1, h2, h3, rfl⟩ := stripImages_obj_parts fs out h
  have hc1 : objGet out1 "ahw_chars" = JVal.arr cs :=
    (stripStep_objGet_ne _ _ _ _ _ h1 (by decide)).trans hc
  obtain ⟨ys, hys, hout2⟩ := stripStep_arr _ _ _ _ _ h2 hc1
  have hys' : ys = cs.map stripCharEntity := by
    rw [mapOpt_total] at hys
    exact (Option.some.inj hys).symm
  constructor
  · show objGet out3 "ahw_chars" = _
    rw [stripStep_objGet_ne _ _ _ _ _ h3 (by decide), hout2,
        objGet_objSet_self, hys']
  · intro ch
    rw [stripCharEntity]
    show objGet _ "image" = _
    rw [objGet_objSet_ne _ _ _ _ (by decide), objGet_objSet_self]

/-- C3 witness: a character whose `image` is the URL
`"http://x/a.png"` comes out of strip with `image` null. -/
theorem c3_witness :
    (JVal.obj [("ahw_chars", JVal.arr [JVal.obj
       [("id", JVal.num 1), ("image", JVal.null),
        ("images", JVal.arr [])]])]).getF "ahw_chars"
      = JVal.arr
          ([JVal.obj [("id", JVal.num 1),
             ("image", JVal.str "http://x/a.png")]].map stripCharEntity) ∧
    (∀ ch, (stripCharEntity ch).getF "image" = JVal.null) :=
  c3_strip_char_image_null
    [("ahw_chars", JVal.arr [JVal.obj
      [("id", JVal.num 1), ("image", JVal.str "http://x/a.png")]])]
    [JVal.obj [("id", JVal.num 1), ("image", JVal.str "http://x/a.png")]]
    (JVal.obj [("ahw_chars", JVal.arr [JVal.obj
      [("id", JVal.num 1), ("image", JVal.null),
       ("images", JVal.arr [])]])])
    rfl rfl
